import Mathlib

/-!
Verification development for the Jac compiler core (jaclang).

The AST node model lives in `src/jaclang/jac/jac_ast.py`.  Python objects are
mutable and referenced by identity, so the tree-mutation utility
`replace_node` is embedded over an explicit store: a node is a natural-number
identifier, the store maps identifiers to the envelope data every `AstNode`
carries (`parent`, `kid`, `line`, `meta`).  Pure structural facts (the class
taxonomy, constructors, `to_dict`, `is_type`) are embedded as plain Lean
structures and functions.
-/

namespace Jac

/-- Envelope fields set by `AstNode.__init__` (jac_ast.py lines 11-18):
`parent` is an optional reference, `kid` an ordered list of references
(a slot may be set to `None` by `replace_node`), `line` the source line and
`meta` the string-keyed metadata mapping. -/
structure NodeData where
  parent : Option Nat
  kid : List (Option Nat)
  line : Int
  meta : List (String × String)
deriving DecidableEq, Repr

/-- Default data used for out-of-range lookups (a model artifact; Python
references are always valid, theorems carry validity hypotheses). -/
def defaultNode : NodeData := { parent := none, kid := [], line := 0, meta := [] }

/-- A store of allocated nodes; the node identifier is the list index. -/
abbrev Store := List NodeData

/-- Data of node `n` in store `s`. -/
def nodeAt (s : Store) (n : Nat) : NodeData := s.getD n defaultNode

/-- Python's `list.index`: position of the first occurrence, `none` when the
element is absent (where CPython raises `ValueError`). -/
def pyListIndex {α : Type} [DecidableEq α] : List α → α → Option Nat
  | [], _ => none
  | y :: ys, x => if y = x then some 0 else (pyListIndex ys x).map (fun i => i + 1)

/-- Write the `kid` attribute of a node, keeping its other attributes. -/
def withKid (nd : NodeData) (k : List (Option Nat)) : NodeData :=
  { parent := nd.parent, kid := k, line := nd.line, meta := nd.meta }

/-- Write the `parent` attribute of a node, keeping its other attributes. -/
def withParent (nd : NodeData) (pp : Option Nat) : NodeData :=
  { parent := pp, kid := nd.kid, line := nd.line, meta := nd.meta }

theorem withKid_kid (nd : NodeData) (k : List (Option Nat)) : (withKid nd k).kid = k := rfl

theorem withKid_parent (nd : NodeData) (k : List (Option Nat)) :
    (withKid nd k).parent = nd.parent := rfl

theorem withKid_line (nd : NodeData) (k : List (Option Nat)) :
    (withKid nd k).line = nd.line := rfl

theorem withKid_meta (nd : NodeData) (k : List (Option Nat)) :
    (withKid nd k).meta = nd.meta := rfl

theorem withParent_parent (nd : NodeData) (pp : Option Nat) :
    (withParent nd pp).parent = pp := rfl

/-- First half of `replace_node` (jac_ast.py line 55-56):
`node.parent.kid[node.parent.kid.index(node)] = new_node` when the node has a
parent; `none` models the `ValueError` raised by `list.index` when `node` is
not in its parent's kid list. -/
def updateKidSlot (s : Store) (node : Nat) (new_node : Option Nat) : Option Store :=
  match (nodeAt s node).parent with
  | none => some s
  | some p =>
    match pyListIndex (nodeAt s p).kid (some node) with
    | none => none
    | some i => some (s.set p (withKid (nodeAt s p) (((nodeAt s p).kid).set i new_node)))

/-- Second half of `replace_node` (jac_ast.py line 57-58):
`if new_node: new_node.parent = node.parent`, reading `node.parent` after the
kid-slot update. -/
def setParentPtr (s1 : Store) (node : Nat) (new_node : Option Nat) : Store :=
  match new_node with
  | none => s1
  | some m => s1.set m (withParent (nodeAt s1 m) ((nodeAt s1 node).parent))

/-- `replace_node` (jac_ast.py lines 53-59).  Returns the updated store and
the function's return value (`new_node`); `none` models an escaping
`ValueError`. -/
def replace_node (s : Store) (node : Nat) (new_node : Option Nat) :
    Option (Store × Option Nat) :=
  match updateKidSlot s node new_node with
  | none => none
  | some s1 => some (setParentPtr s1 node new_node, new_node)

/-! ### Basic lemmas about the store and `pyListIndex` -/

theorem getD_set_self {α : Type} :
    ∀ (s : List α) (p : Nat) (nd d : α), p < s.length → (s.set p nd).getD p d = nd := by
  intro s
  induction s with
  | nil => intro p nd d h; simp at h
  | cons a t ih =>
    intro p nd d h
    cases p with
    | zero => rfl
    | succ q =>
      have hq : q < t.length := by simpa using h
      simpa [List.getD] using ih q nd d hq

theorem getD_set_ne {α : Type} :
    ∀ (s : List α) (p q : Nat) (nd d : α), q ≠ p → (s.set p nd).getD q d = s.getD q d := by
  intro s
  induction s with
  | nil => intro p q nd d _; rfl
  | cons a t ih =>
    intro p q nd d hne
    cases p with
    | zero =>
      cases q with
      | zero => exact absurd rfl hne
      | succ j => rfl
    | succ i =>
      cases q with
      | zero => rfl
      | succ j =>
        have : j ≠ i := fun h => hne (by simp [h])
        simpa [List.getD] using ih i j nd d this

theorem nodeAt_set_self (s : Store) (p : Nat) (nd : NodeData) (hp : p < s.length) :
    nodeAt (s.set p nd) p = nd :=
  getD_set_self s p nd defaultNode hp

theorem nodeAt_set_ne (s : Store) (p q : Nat) (nd : NodeData) (hq : q ≠ p) :
    nodeAt (s.set p nd) q = nodeAt s q :=
  getD_set_ne s p q nd defaultNode hq

theorem nodeAt_out (s : Store) (p : Nat) (h : s.length ≤ p) : nodeAt s p = defaultNode := by
  unfold nodeAt
  induction s generalizing p with
  | nil => rfl
  | cons a t ih =>
    cases p with
    | zero => simp at h
    | succ q =>
      have hq : t.length ≤ q := by simpa using h
      simpa [List.getD] using ih q hq

theorem pyListIndex_get {α : Type} [DecidableEq α] :
    ∀ (l : List α) (x : α) (i : Nat), pyListIndex l x = some i → l[i]? = some x := by
  intro l
  induction l with
  | nil => intro x i h; simp [pyListIndex] at h
  | cons y ys ih =>
    intro x i h
    by_cases hyx : y = x
    · simp [pyListIndex, hyx] at h
      subst h
      simp [hyx]
    · simp [pyListIndex, hyx] at h
      obtain ⟨j, hj, rfl⟩ := h
      simpa using ih x j hj

theorem pyListIndex_lt {α : Type} [DecidableEq α] (l : List α) (x : α) (i : Nat)
    (h : pyListIndex l x = some i) : i < l.length := by
  have := pyListIndex_get l x i h
  by_contra hlt
  rw [List.getElem?_eq_none (by omega)] at this
  exact Option.noConfusion this

theorem pyListIndex_of_mem {α : Type} [DecidableEq α] :
    ∀ (l : List α) (x : α), x ∈ l → ∃ i, pyListIndex l x = some i := by
  intro l
  induction l with
  | nil => intro x h; simp at h
  | cons y ys ih =>
    intro x h
    by_cases hyx : y = x
    · exact ⟨0, by simp [pyListIndex, hyx]⟩
    · have hmem : x ∈ ys := by
        rcases List.mem_cons.mp h with h1 | h2
        · exact absurd h1.symm hyx
        · exact h2
      obtain ⟨j, hj⟩ := ih x hmem
      exact ⟨j + 1, by simp [pyListIndex, hyx, hj]⟩

theorem set_getElem?_ne {α : Type} :
    ∀ (l : List α) (i j : Nat) (v : α), j ≠ i → (l.set i v)[j]? = l[j]? := by
  intro l
  induction l with
  | nil => intro i j v _; rfl
  | cons a t ih =>
    intro i j v hne
    cases i with
    | zero =>
      cases j with
      | zero => exact absurd rfl hne
      | succ jj => simp
    | succ ii =>
      cases j with
      | zero => simp
      | succ jj =>
        have : jj ≠ ii := fun h => hne (by simp [h])
        simpa using ih ii jj v this

theorem set_oob {α : Type} :
    ∀ (l : List α) (i : Nat) (v : α), l.length ≤ i → l.set i v = l := by
  intro l
  induction l with
  | nil => intro i v _; rfl
  | cons a t ih =>
    intro i v h
    cases i with
    | zero => simp at h
    | succ j =>
      have : t.length ≤ j := by simpa using h
      simp [List.set, ih j v this]

/-- Unfolding of `replace_node` in the has-parent case, with the position of
the first occurrence of `node` in its parent's kid list given. -/
theorem replace_node_eq (s : Store) (node : Nat) (v : Option Nat) (p i : Nat)
    (hpar : (nodeAt s node).parent = some p)
    (hi : pyListIndex (nodeAt s p).kid (some node) = some i) :
    replace_node s node v =
      some (setParentPtr
        (s.set p (withKid (nodeAt s p) (((nodeAt s p).kid).set i v))) node v, v) := by
  simp only [replace_node, updateKidSlot, hpar, hi]

/-- The kid-slot update leaves every parent pointer as it was. -/
theorem parent_after_kid_update (s : Store) (p : Nat) (k : List (Option Nat)) (n : Nat) :
    (nodeAt (s.set p (withKid (nodeAt s p) k)) n).parent = (nodeAt s n).parent := by
  by_cases hnp : n = p
  · subst hnp
    by_cases hp : n < s.length
    · rw [nodeAt_set_self s n _ hp, withKid_parent]
    · rw [set_oob s n _ (by omega)]
  · rw [nodeAt_set_ne s p n _ hnp]

/-- The parent-pointer update of `replace_node` leaves every node's kid list,
line and metadata as they were. -/
theorem setParentPtr_preserves (s1 : Store) (node : Nat) (v : Option Nat) (q : Nat) :
    (nodeAt (setParentPtr s1 node v) q).kid = (nodeAt s1 q).kid ∧
    (nodeAt (setParentPtr s1 node v) q).line = (nodeAt s1 q).line ∧
    (nodeAt (setParentPtr s1 node v) q).meta = (nodeAt s1 q).meta := by
  cases v with
  | none => exact ⟨rfl, rfl, rfl⟩
  | some m =>
    simp only [setParentPtr]
    by_cases hmL : m < s1.length
    · by_cases hq : q = m
      · subst hq
        rw [nodeAt_set_self s1 q _ hmL]
        exact ⟨rfl, rfl, rfl⟩
      · rw [nodeAt_set_ne s1 m q _ hq]
        exact ⟨rfl, rfl, rfl⟩
    · rw [set_oob s1 m _ (by omega)]
      exact ⟨rfl, rfl, rfl⟩

/-- C1: for every node with a parent that occurs in the parent's kid list and
every replacement node, `replace_node` writes the replacement into the
parent's kid slot at the node's (first) position, repoints the replacement's
parent to the node's parent, and returns the replacement — both updates in
the one call. -/
theorem replace_node_relinks (s : Store) (node m p : Nat)
    (hpar : (nodeAt s node).parent = some p)
    (hmem : some node ∈ (nodeAt s p).kid)
    (hm : m < s.length) :
    ∃ s2 i, pyListIndex (nodeAt s p).kid (some node) = some i ∧
      replace_node s node (some m) = some (s2, some m) ∧
      (nodeAt s2 p).kid = ((nodeAt s p).kid).set i (some m) ∧
      (nodeAt s2 m).parent = some p := by
  obtain ⟨i, hi⟩ := pyListIndex_of_mem _ _ hmem
  have hp : p < s.length := by
    by_contra hnp
    rw [nodeAt_out s p (by omega)] at hmem
    simp [defaultNode] at hmem
  have hrepl := replace_node_eq s node (some m) p i hpar hi
  refine ⟨_, i, hi, hrepl, ?_, ?_⟩
  · -- the parent's kid list after the call
    rw [(setParentPtr_preserves _ node (some m) p).1]
    rw [nodeAt_set_self s p _ hp, withKid_kid]
  · -- the replacement's parent pointer after the call
    show (nodeAt (setParentPtr
      (s.set p (withKid (nodeAt s p) (((nodeAt s p).kid).set i (some m))))
        node (some m)) m).parent = some p
    unfold setParentPtr
    rw [nodeAt_set_self _ m _ (by simpa using hm)]
    show (nodeAt (s.set p (withKid (nodeAt s p) (((nodeAt s p).kid).set i (some m))))
      node).parent = some p
    rw [parent_after_kid_update]
    exact hpar

/-- Concrete store used by witnesses: node 0 is a root with children 1 and 3,
node 2 is a detached node, node 3 a second child. -/
def wStore : Store :=
  [ { parent := none, kid := [some 1, some 3], line := 1, meta := [] },
    { parent := some 0, kid := [], line := 2, meta := [] },
    { parent := none, kid := [], line := 3, meta := [] },
    { parent := some 0, kid := [], line := 4, meta := [] } ]

theorem replace_node_relinks_witness :
    ∃ s2 i, pyListIndex (nodeAt wStore 0).kid (some 1) = some i ∧
      replace_node wStore 1 (some 2) = some (s2, some 2) ∧
      (nodeAt s2 0).kid = ((nodeAt wStore 0).kid).set i (some 2) ∧
      (nodeAt s2 2).parent = some 0 :=
  replace_node_relinks wStore 1 2 0 (by decide) (by decide) (by decide)

/-- C8: `replace_node` only touches the targeted child slot: every other
element of the parent's kid list is unchanged and keeps its position, and the
parent node itself (same store id), its line and its metadata are unchanged. -/
theorem replace_node_frame (s : Store) (node p : Nat) (v : Option Nat)
    (hpar : (nodeAt s node).parent = some p)
    (hmem : some node ∈ (nodeAt s p).kid) :
    ∃ s2 i, pyListIndex (nodeAt s p).kid (some node) = some i ∧
      replace_node s node v = some (s2, v) ∧
      ((nodeAt s2 p).kid).length = ((nodeAt s p).kid).length ∧
      (∀ j, j ≠ i → ((nodeAt s2 p).kid)[j]? = ((nodeAt s p).kid)[j]?) ∧
      (nodeAt s2 p).line = (nodeAt s p).line ∧
      (nodeAt s2 p).meta = (nodeAt s p).meta := by
  obtain ⟨i, hi⟩ := pyListIndex_of_mem _ _ hmem
  have hp : p < s.length := by
    by_contra hnp
    rw [nodeAt_out s p (by omega)] at hmem
    simp [defaultNode] at hmem
  have hrepl := replace_node_eq s node v p i hpar hi
  have hkid : (nodeAt (setParentPtr
      (s.set p (withKid (nodeAt s p) (((nodeAt s p).kid).set i v))) node v) p).kid =
      ((nodeAt s p).kid).set i v := by
    rw [(setParentPtr_preserves _ node v p).1]
    rw [nodeAt_set_self s p _ hp, withKid_kid]
  refine ⟨_, i, hi, hrepl, ?_, ?_, ?_, ?_⟩
  · rw [hkid]; simp
  · intro j hj
    rw [hkid]
    exact set_getElem?_ne _ i j v hj
  · rw [(setParentPtr_preserves _ node v p).2.1]
    rw [nodeAt_set_self s p _ hp, withKid_line]
  · rw [(setParentPtr_preserves _ node v p).2.2]
    rw [nodeAt_set_self s p _ hp, withKid_meta]

theorem replace_node_frame_witness :
    ∃ s2 i, pyListIndex (nodeAt wStore 0).kid (some 3) = some i ∧
      replace_node wStore 3 (some 2) = some (s2, some 2) ∧
      ((nodeAt s2 0).kid).length = ((nodeAt wStore 0).kid).length ∧
      (∀ j, j ≠ i → ((nodeAt s2 0).kid)[j]? = ((nodeAt wStore 0).kid)[j]?) ∧
      (nodeAt s2 0).line = (nodeAt wStore 0).line ∧
      (nodeAt s2 0).meta = (nodeAt wStore 0).meta :=
  replace_node_frame wStore 3 0 (some 2) (by decide) (by decide)

/-! ### Tree consistency (spec invariant 1 / testable property "Tree consistency") -/

/-- Number of occurrences of `x` in a kid list. -/
def cnt (x : Option Nat) : List (Option Nat) → Nat
  | [] => 0
  | y :: ys => (if y = x then 1 else 0) + cnt x ys

/-- Number of kid-list slots of the whole store holding node `x`: the number
of tree positions at which `x` appears as a child. -/
def childCount : Store → Nat → Nat
  | [], _ => 0
  | nd :: rest, x => cnt (some x) nd.kid + childCount rest x

/-- Node `n` is a root, or its parent is allocated and lists it exactly once
among its kids. -/
def inv1At (s : Store) (n : Nat) : Bool :=
  match (nodeAt s n).parent with
  | none => true
  | some p => decide (p < s.length) && decide (cnt (some n) (nodeAt s p).kid = 1)

/-- The claimed tree-consistency invariant over a store: every non-root
node's parent's kid list contains it exactly once, and no node appears at
two tree positions. -/
def treeConsistent (s : Store) : Bool :=
  ((List.range s.length).all fun n => inv1At s n) &&
  ((List.range s.length).all fun x => decide (childCount s x ≤ 1))

/-- The invariant with the first clause waived for the single node `ex`. -/
def treeConsistentExcept (s : Store) (ex : Nat) : Bool :=
  ((List.range s.length).all fun n => decide (n = ex) || inv1At s n) &&
  ((List.range s.length).all fun x => decide (childCount s x ≤ 1))

theorem nodeAt_cons_succ (nd : NodeData) (rest : Store) (q : Nat) :
    nodeAt (nd :: rest) (q + 1) = nodeAt rest q := by
  simp [nodeAt, List.getD]

theorem cnt_set :
    ∀ (l : List (Option Nat)) (i : Nat) (v y x : Option Nat), l[i]? = some y →
      cnt x (l.set i v) + (if y = x then 1 else 0) =
        cnt x l + (if v = x then 1 else 0) := by
  intro l
  induction l with
  | nil => intro i v y x h; simp at h
  | cons a t ih =>
    intro i v y x h
    cases i with
    | zero =>
      simp at h
      subst h
      simp only [List.set, cnt]
      omega
    | succ j =>
      simp at h
      have e := ih j v y x h
      simp only [List.set, cnt]
      omega

theorem mem_of_cnt_pos :
    ∀ (l : List (Option Nat)) (x : Option Nat), 0 < cnt x l → x ∈ l := by
  intro l
  induction l with
  | nil => intro x h; simp [cnt] at h
  | cons y ys ih =>
    intro x h
    by_cases hyx : y = x
    · exact List.mem_cons.mpr (Or.inl hyx.symm)
    · simp only [cnt, if_neg hyx, Nat.zero_add] at h
      exact List.mem_cons.mpr (Or.inr (ih x h))

theorem cnt_le_childCount :
    ∀ (s : Store) (p x : Nat), p < s.length →
      cnt (some x) (nodeAt s p).kid ≤ childCount s x := by
  intro s
  induction s with
  | nil => intro p x h; simp at h
  | cons nd rest ih =>
    intro p x h
    cases p with
    | zero =>
      show cnt (some x) nd.kid ≤ cnt (some x) nd.kid + childCount rest x
      omega
    | succ q =>
      have hq : q < rest.length := by simpa using h
      have e := ih q x hq
      rw [nodeAt_cons_succ]
      show cnt (some x) (nodeAt rest q).kid ≤ cnt (some x) nd.kid + childCount rest x
      omega

theorem childCount_set :
    ∀ (s : Store) (p : Nat) (nd' : NodeData) (x : Nat), p < s.length →
      childCount (s.set p nd') x + cnt (some x) (nodeAt s p).kid =
        childCount s x + cnt (some x) nd'.kid := by
  intro s
  induction s with
  | nil => intro p nd' x h; simp at h
  | cons nd rest ih =>
    intro p nd' x h
    cases p with
    | zero =>
      show cnt (some x) nd'.kid + childCount rest x + cnt (some x) nd.kid =
        cnt (some x) nd.kid + childCount rest x + cnt (some x) nd'.kid
      omega
    | succ q =>
      have hq : q < rest.length := by simpa using h
      have e := ih q nd' x hq
      rw [nodeAt_cons_succ]
      show cnt (some x) nd.kid + childCount (rest.set q nd') x +
          cnt (some x) (nodeAt rest q).kid =
        cnt (some x) nd.kid + childCount rest x + cnt (some x) nd'.kid
      omega

theorem set_nodeAt_self : ∀ (s : Store) (m : Nat), s.set m (nodeAt s m) = s := by
  intro s
  induction s with
  | nil => intro m; rfl
  | cons nd rest ih =>
    intro m
    cases m with
    | zero => rfl
    | succ q =>
      rw [nodeAt_cons_succ]
      show nd :: rest.set q (nodeAt rest q) = nd :: rest
      rw [ih q]

theorem nd_parent_eta (nd : NodeData) (pp : Option Nat) (h : nd.parent = pp) :
    withParent nd pp = nd := by
  cases nd
  simp_all [withParent]

theorem childCount_setParentPtr (s1 : Store) (node : Nat) (v : Option Nat) (x : Nat) :
    childCount (setParentPtr s1 node v) x = childCount s1 x := by
  cases v with
  | none => rfl
  | some m =>
    simp only [setParentPtr]
    by_cases hm : m < s1.length
    · have e := childCount_set s1 m
        (withParent (nodeAt s1 m) ((nodeAt s1 node).parent)) x hm
      have hk : (withParent (nodeAt s1 m) ((nodeAt s1 node).parent) : NodeData).kid =
          (nodeAt s1 m).kid := rfl
      rw [hk] at e
      omega
    · rw [set_oob s1 m _ (by omega)]

theorem length_setParentPtr (s1 : Store) (node : Nat) (v : Option Nat) :
    (setParentPtr s1 node v).length = s1.length := by
  cases v with
  | none => rfl
  | some m => simp [setParentPtr]

theorem setParentPtr_parent_ne (s1 : Store) (node : Nat) (v : Option Nat) (q : Nat)
    (hq : v ≠ some q) :
    (nodeAt (setParentPtr s1 node v) q).parent = (nodeAt s1 q).parent := by
  cases v with
  | none => rfl
  | some m =>
    simp only [setParentPtr]
    have hne : q ≠ m := fun h => hq (by rw [h])
    rw [nodeAt_set_ne s1 m q _ hne]

theorem setParentPtr_parent_self (s1 : Store) (node m : Nat) (hm : m < s1.length) :
    (nodeAt (setParentPtr s1 node (some m)) m).parent = (nodeAt s1 node).parent := by
  simp only [setParentPtr]
  rw [nodeAt_set_self s1 m _ hm, withParent_parent]

theorem treeConsistent_inv1 (s : Store) (h : treeConsistent s = true) (n : Nat)
    (hn : n < s.length) : inv1At s n = true := by
  unfold treeConsistent at h
  rw [Bool.and_eq_true] at h
  exact List.all_eq_true.mp h.1 n (List.mem_range.mpr hn)

theorem treeConsistent_cc (s : Store) (h : treeConsistent s = true) (x : Nat)
    (hx : x < s.length) : childCount s x ≤ 1 :=
  of_decide_eq_true (List.all_eq_true.mp
    ((Bool.and_eq_true _ _).mp h).2 x (List.mem_range.mpr hx))

theorem inv1At_elim (s : Store) (n p : Nat) (h : inv1At s n = true)
    (hp : (nodeAt s n).parent = some p) :
    p < s.length ∧ cnt (some n) (nodeAt s p).kid = 1 := by
  unfold inv1At at h
  rw [hp, Bool.and_eq_true] at h
  exact ⟨of_decide_eq_true h.1, of_decide_eq_true h.2⟩

theorem inv1At_intro (s : Store) (n : Nat)
    (h : ∀ p, (nodeAt s n).parent = some p →
      p < s.length ∧ cnt (some n) (nodeAt s p).kid = 1) :
    inv1At s n = true := by
  unfold inv1At
  cases hpar : (nodeAt s n).parent with
  | none => rfl
  | some p =>
    obtain ⟨h1, h2⟩ := h p hpar
    rw [Bool.and_eq_true]
    exact ⟨decide_eq_true h1, decide_eq_true h2⟩

theorem treeConsistentExcept_intro (s : Store) (ex : Nat)
    (h1 : ∀ n, n < s.length → n ≠ ex → inv1At s n = true)
    (h2 : ∀ x, x < s.length → childCount s x ≤ 1) :
    treeConsistentExcept s ex = true := by
  unfold treeConsistentExcept
  rw [Bool.and_eq_true]
  constructor
  · rw [List.all_eq_true]
    intro n hn
    rw [Bool.or_eq_true]
    by_cases hex : n = ex
    · exact Or.inl (decide_eq_true hex)
    · exact Or.inr (h1 n (List.mem_range.mp hn) hex)
  · rw [List.all_eq_true]
    intro x hx
    exact decide_eq_true (h2 x (List.mem_range.mp hx))

/-- Store refuting C2 as stated: node 0 is the root with the single child 1,
node 2 is a detached (fresh) node. -/
def cex2Store : Store :=
  [ { parent := none, kid := [some 1], line := 1, meta := [] },
    { parent := some 0, kid := [], line := 2, meta := [] },
    { parent := none, kid := [], line := 3, meta := [] } ]

/-- C2 counterexample: the consistency invariant is NOT preserved by
`replace_node` as the claim states it.  On the consistent three-node store
`cex2Store`, `replace_node 1 (some 2)` replaces the root's only child 1 by
the fresh node 2; afterwards node 1 still carries its stale parent pointer
to node 0 while node 0's kid list no longer contains it, so the resulting
store violates "every non-root node's parent's child list contains that node
exactly once". -/
theorem replace_node_breaks_consistency :
    treeConsistent cex2Store = true ∧
    (replace_node cex2Store 1 (some 2)).map (fun r => treeConsistent r.1) =
      some false := by decide

/-- C2 (amended): on a consistent store, for a replacement that is `None` or
a fresh allocated node (it occupies no tree position and differs from the
replaced node), `replace_node` succeeds and afterwards every non-root node
other than the replaced one occurs exactly once in its parent's kid list and
no node occupies two tree positions; the replaced node itself keeps a stale
parent pointer and occupies no position. -/
theorem replace_node_keeps_tree_consistent (s : Store) (node : Nat) (v : Option Nat)
    (hc : treeConsistent s = true)
    (hn : node < s.length)
    (hv : ∀ m, v = some m → m < s.length ∧ childCount s m = 0 ∧ m ≠ node) :
    ∃ s2, replace_node s node v = some (s2, v) ∧
      treeConsistentExcept s2 node = true := by
  cases hpar : (nodeAt s node).parent with
  | none =>
    have hstep1 : updateKidSlot s node v = some s := by
      unfold updateKidSlot
      rw [hpar]
    have hrepl : replace_node s node v = some (setParentPtr s node v, v) := by
      unfold replace_node
      rw [hstep1]
    have hs2 : setParentPtr s node v = s := by
      cases v with
      | none => rfl
      | some m =>
        obtain ⟨hmL, hm0, hmne⟩ := hv m rfl
        have hmp : (nodeAt s m).parent = none := by
          cases hmp : (nodeAt s m).parent with
          | none => rfl
          | some q =>
            exfalso
            have hinv := inv1At_elim s m q (treeConsistent_inv1 s hc m hmL) hmp
            have hle := cnt_le_childCount s q m hinv.1
            omega
        simp only [setParentPtr]
        rw [hpar, nd_parent_eta (nodeAt s m) none hmp, set_nodeAt_self]
    rw [hrepl, hs2]
    refine ⟨s, rfl, ?_⟩
    exact treeConsistentExcept_intro s node
      (fun n hn2 _ => treeConsistent_inv1 s hc n hn2)
      (fun x hx => treeConsistent_cc s hc x hx)
  | some p =>
    have hinv := inv1At_elim s node p (treeConsistent_inv1 s hc node hn) hpar
    have hp : p < s.length := hinv.1
    have hcnt1 : cnt (some node) (nodeAt s p).kid = 1 := hinv.2
    have hmem : (some node : Option Nat) ∈ (nodeAt s p).kid :=
      mem_of_cnt_pos _ _ (by omega)
    obtain ⟨i, hi⟩ := pyListIndex_of_mem _ _ hmem
    have hgi : ((nodeAt s p).kid)[i]? = some (some node) := pyListIndex_get _ _ i hi
    have hrepl := replace_node_eq s node v p i hpar hi
    have hcnt_new : ∀ y : Option Nat,
        cnt y (((nodeAt s p).kid).set i v) + (if some node = y then 1 else 0) =
          cnt y (nodeAt s p).kid + (if v = y then 1 else 0) :=
      fun y => cnt_set _ i v _ y hgi
    -- kid lists of the final store
    have hkid2 : ∀ q : Nat,
        (nodeAt (setParentPtr
          (s.set p (withKid (nodeAt s p) (((nodeAt s p).kid).set i v))) node v) q).kid =
        (nodeAt (s.set p (withKid (nodeAt s p) (((nodeAt s p).kid).set i v))) q).kid :=
      fun q => (setParentPtr_preserves _ node v q).1
    have hkid1p : (nodeAt (s.set p (withKid (nodeAt s p) (((nodeAt s p).kid).set i v)))
        p).kid = ((nodeAt s p).kid).set i v := by
      rw [nodeAt_set_self s p _ hp, withKid_kid]
    have hkid1ne : ∀ q : Nat, q ≠ p →
        (nodeAt (s.set p (withKid (nodeAt s p) (((nodeAt s p).kid).set i v))) q).kid =
          (nodeAt s q).kid := by
      intro q hq
      rw [nodeAt_set_ne s p q _ hq]
    -- child counts of the intermediate store
    have hcc1 : ∀ x : Nat,
        childCount (s.set p (withKid (nodeAt s p) (((nodeAt s p).kid).set i v))) x +
          cnt (some x) (nodeAt s p).kid =
        childCount s x + cnt (some x) (((nodeAt s p).kid).set i v) := by
      intro x
      have e := childCount_set s p
        (withKid (nodeAt s p) (((nodeAt s p).kid).set i v)) x hp
      have hk : (withKid (nodeAt s p) (((nodeAt s p).kid).set i v) : NodeData).kid =
          ((nodeAt s p).kid).set i v := rfl
      rw [hk] at e
      exact e
    -- the replacement slot count: 0 for the replaced node, 1 for a fresh node
    have hcnt_node : cnt (some node) (((nodeAt s p).kid).set i v) = 0 := by
      have e := hcnt_new (some node)
      rw [if_pos rfl] at e
      have hnv : (if v = some node then 1 else 0) = 0 := by
        by_cases hvz : v = some node
        · exact absurd rfl (hv node hvz).2.2
        · exact if_neg hvz
      rw [hnv] at e
      omega
    -- childCount bound for the final store
    have hccfin : ∀ x, x < s.length →
        childCount (setParentPtr
          (s.set p (withKid (nodeAt s p) (((nodeAt s p).kid).set i v))) node v) x ≤ 1 := by
      intro x hx
      rw [childCount_setParentPtr]
      have e := hcc1 x
      have hccx : childCount s x ≤ 1 := treeConsistent_cc s hc x hx
      by_cases hxn : x = node
      · subst hxn
        omega
      · have e3 := hcnt_new (some x)
        rw [if_neg (fun h => hxn (Option.some.inj h).symm)] at e3
        by_cases hvx : v = some x
        · obtain ⟨hxL, hx0, hxne⟩ := hv x hvx
          rw [if_pos hvx] at e3
          have hge := cnt_le_childCount s p x hp
          omega
        · rw [if_neg hvx] at e3
          omega
    refine ⟨setParentPtr
      (s.set p (withKid (nodeAt s p) (((nodeAt s p).kid).set i v))) node v, hrepl, ?_⟩
    have hlen2 : (setParentPtr
        (s.set p (withKid (nodeAt s p) (((nodeAt s p).kid).set i v))) node v).length =
        s.length := by
      rw [length_setParentPtr]
      simp
    apply treeConsistentExcept_intro
    · -- every non-root node other than `node` is listed exactly once by its parent
      intro n hn2 hne
      rw [hlen2] at hn2
      apply inv1At_intro
      intro q hq
      rw [hlen2]
      by_cases hvn : v = some n
      · -- n is the freshly attached node: its new parent is p
        obtain ⟨hmL, hm0, hmne⟩ := hv n hvn
        rw [hvn] at hq
        rw [setParentPtr_parent_self _ node n (by simpa using hmL)] at hq
        rw [parent_after_kid_update, hpar] at hq
        obtain rfl := Option.some.inj hq
        refine ⟨hp, ?_⟩
        rw [hkid2, hkid1p]
        have e3 := hcnt_new (some n)
        rw [if_neg (fun h => hne (Option.some.inj h).symm)] at e3
        rw [if_pos hvn] at e3
        have hle := cnt_le_childCount s p n hp
        omega
      · -- n keeps its old parent
        rw [setParentPtr_parent_ne _ node v n hvn] at hq
        rw [parent_after_kid_update] at hq
        obtain ⟨hq1, hq2⟩ := inv1At_elim s n q (treeConsistent_inv1 s hc n hn2) hq
        refine ⟨hq1, ?_⟩
        rw [hkid2]
        by_cases hqp : q = p
        · subst hqp
          rw [hkid1p]
          have e3 := hcnt_new (some n)
          rw [if_neg (fun h => hne (Option.some.inj h).symm)] at e3
          rw [if_neg hvn] at e3
          omega
        · rw [hkid1ne q hqp]
          exact hq2
    · intro x hx
      rw [hlen2] at hx
      exact hccfin x hx

theorem replace_node_keeps_tree_consistent_witness :
    ∃ s2, replace_node cex2Store 1 (some 2) = some (s2, some 2) ∧
      treeConsistentExcept s2 1 = true :=
  replace_node_keeps_tree_consistent cex2Store 1 (some 2) (by decide) (by decide)
    (by
      intro m hm
      injection hm with h
      subst h
      exact ⟨by decide, by decide, by decide⟩)

/-! ### The node-class taxonomy and the dynamic operations on it -/

/-- The closed set of AST node classes defined in jac_ast.py, in source order. -/
inductive JacClass where
  | AstNode
  | Token
  | Parse
  | Module
  | Elements
  | GlobalVars
  | Test
  | ModuleCode
  | DocString
  | Import
  | ModulePath
  | ModuleItems
  | ModuleItem
  | Architype
  | ArchDecl
  | ArchDef
  | BaseClasses
  | Ability
  | AbilityDecl
  | AbilityDef
  | AbilitySpec
  | ArchBlock
  | ArchHas
  | HasVarList
  | HasVar
  | TypeSpec
  | ArchCan
  | ArchCanDecl
  | EventSignature
  | NameList
  | FuncSignature
  | FuncParams
  | ParamVar
  | CodeBlock
  | IfStmt
  | ElseIfs
  | ElseStmt
  | TryStmt
  | ExceptList
  | Except
  | FinallyStmt
  | IterForStmt
  | InForStmt
  | DictForStmt
  | WhileStmt
  | RaiseStmt
  | AssertStmt
  | CtrlStmt
  | DeleteStmt
  | ReportStmt
  | ReturnStmt
  | YieldStmt
  | IgnoreStmt
  | VisitStmt
  | RevisitStmt
  | DisengageStmt
  | SyncStmt
  | Assignment
  | BinaryExpr
  | IfElseExpr
  | UnaryExpr
  | SpawnObjectExpr
  | UnpackExpr
  | MultiString
  | ListVal
  | ExprList
  | DictVal
  | Comprehension
  | KVPair
  | AtomTrailer
  | FuncCall
  | ParamList
  | AssignmentList
  | IndexSlice
  | GlobalRef
  | HereRef
  | VisitorRef
  | NodeRef
  | EdgeRef
  | WalkerRef
  | FuncRef
  | ObjectRef
  | AbilityRef
  | EdgeOpRef
  | DisconnectOp
  | ConnectOp
  | SpawnCtx
  | FilterCtx
deriving DecidableEq, Repr

/-- `type(self).__name__` for each node class. -/
def pyName : JacClass → String
  | JacClass.AstNode => "AstNode"
  | JacClass.Token => "Token"
  | JacClass.Parse => "Parse"
  | JacClass.Module => "Module"
  | JacClass.Elements => "Elements"
  | JacClass.GlobalVars => "GlobalVars"
  | JacClass.Test => "Test"
  | JacClass.ModuleCode => "ModuleCode"
  | JacClass.DocString => "DocString"
  | JacClass.Import => "Import"
  | JacClass.ModulePath => "ModulePath"
  | JacClass.ModuleItems => "ModuleItems"
  | JacClass.ModuleItem => "ModuleItem"
  | JacClass.Architype => "Architype"
  | JacClass.ArchDecl => "ArchDecl"
  | JacClass.ArchDef => "ArchDef"
  | JacClass.BaseClasses => "BaseClasses"
  | JacClass.Ability => "Ability"
  | JacClass.AbilityDecl => "AbilityDecl"
  | JacClass.AbilityDef => "AbilityDef"
  | JacClass.AbilitySpec => "AbilitySpec"
  | JacClass.ArchBlock => "ArchBlock"
  | JacClass.ArchHas => "ArchHas"
  | JacClass.HasVarList => "HasVarList"
  | JacClass.HasVar => "HasVar"
  | JacClass.TypeSpec => "TypeSpec"
  | JacClass.ArchCan => "ArchCan"
  | JacClass.ArchCanDecl => "ArchCanDecl"
  | JacClass.EventSignature => "EventSignature"
  | JacClass.NameList => "NameList"
  | JacClass.FuncSignature => "FuncSignature"
  | JacClass.FuncParams => "FuncParams"
  | JacClass.ParamVar => "ParamVar"
  | JacClass.CodeBlock => "CodeBlock"
  | JacClass.IfStmt => "IfStmt"
  | JacClass.ElseIfs => "ElseIfs"
  | JacClass.ElseStmt => "ElseStmt"
  | JacClass.TryStmt => "TryStmt"
  | JacClass.ExceptList => "ExceptList"
  | JacClass.Except => "Except"
  | JacClass.FinallyStmt => "FinallyStmt"
  | JacClass.IterForStmt => "IterForStmt"
  | JacClass.InForStmt => "InForStmt"
  | JacClass.DictForStmt => "DictForStmt"
  | JacClass.WhileStmt => "WhileStmt"
  | JacClass.RaiseStmt => "RaiseStmt"
  | JacClass.AssertStmt => "AssertStmt"
  | JacClass.CtrlStmt => "CtrlStmt"
  | JacClass.DeleteStmt => "DeleteStmt"
  | JacClass.ReportStmt => "ReportStmt"
  | JacClass.ReturnStmt => "ReturnStmt"
  | JacClass.YieldStmt => "YieldStmt"
  | JacClass.IgnoreStmt => "IgnoreStmt"
  | JacClass.VisitStmt => "VisitStmt"
  | JacClass.RevisitStmt => "RevisitStmt"
  | JacClass.DisengageStmt => "DisengageStmt"
  | JacClass.SyncStmt => "SyncStmt"
  | JacClass.Assignment => "Assignment"
  | JacClass.BinaryExpr => "BinaryExpr"
  | JacClass.IfElseExpr => "IfElseExpr"
  | JacClass.UnaryExpr => "UnaryExpr"
  | JacClass.SpawnObjectExpr => "SpawnObjectExpr"
  | JacClass.UnpackExpr => "UnpackExpr"
  | JacClass.MultiString => "MultiString"
  | JacClass.ListVal => "ListVal"
  | JacClass.ExprList => "ExprList"
  | JacClass.DictVal => "DictVal"
  | JacClass.Comprehension => "Comprehension"
  | JacClass.KVPair => "KVPair"
  | JacClass.AtomTrailer => "AtomTrailer"
  | JacClass.FuncCall => "FuncCall"
  | JacClass.ParamList => "ParamList"
  | JacClass.AssignmentList => "AssignmentList"
  | JacClass.IndexSlice => "IndexSlice"
  | JacClass.GlobalRef => "GlobalRef"
  | JacClass.HereRef => "HereRef"
  | JacClass.VisitorRef => "VisitorRef"
  | JacClass.NodeRef => "NodeRef"
  | JacClass.EdgeRef => "EdgeRef"
  | JacClass.WalkerRef => "WalkerRef"
  | JacClass.FuncRef => "FuncRef"
  | JacClass.ObjectRef => "ObjectRef"
  | JacClass.AbilityRef => "AbilityRef"
  | JacClass.EdgeOpRef => "EdgeOpRef"
  | JacClass.DisconnectOp => "DisconnectOp"
  | JacClass.ConnectOp => "ConnectOp"
  | JacClass.SpawnCtx => "SpawnCtx"
  | JacClass.FilterCtx => "FilterCtx"

/-- Direct base class of each node class, from the `class X(Y)` headers:
all classes extend `AstNode` directly except `ParamVar(HasVar)`,
`ExprList(ListVal)`, `AssignmentList(ExprList)`, `VisitorRef(HereRef)`,
`DisconnectOp(EdgeOpRef)` and the six `GlobalRef` specializations
(jac_ast.py lines 1353-1400). -/
def pyBase : JacClass → Option JacClass
  | JacClass.AstNode => none
  | JacClass.ParamVar => some JacClass.HasVar
  | JacClass.ExprList => some JacClass.ListVal
  | JacClass.AssignmentList => some JacClass.ExprList
  | JacClass.VisitorRef => some JacClass.HereRef
  | JacClass.NodeRef => some JacClass.GlobalRef
  | JacClass.EdgeRef => some JacClass.GlobalRef
  | JacClass.WalkerRef => some JacClass.GlobalRef
  | JacClass.FuncRef => some JacClass.GlobalRef
  | JacClass.ObjectRef => some JacClass.GlobalRef
  | JacClass.AbilityRef => some JacClass.GlobalRef
  | JacClass.DisconnectOp => some JacClass.EdgeOpRef
  | _ => some JacClass.AstNode

def ancestry : Nat → JacClass → List JacClass
  | 0, _ => []
  | fuel + 1, c =>
    c :: (match pyBase c with
          | none => []
          | some b => ancestry fuel b)

/-- The base-class chain of a node class (every chain here has length at
most four: e.g. AssignmentList, ExprList, ListVal, AstNode). -/
def mro (c : JacClass) : List JacClass := ancestry 4 c

/-- Python's `isinstance` over these single-inheritance node classes. -/
def isinstance (c t : JacClass) : Bool := decide (t ∈ mro c)

/-- Runtime view of an `AstNode` instance for the dynamic operations
`to_dict` and `is_type`: its concrete class, its `name`/`value` attributes
when present (`Token` instances carry both), its kid list (slots may hold
`None` after `replace_node`) and its line. -/
inductive RAst : Type where
  | mk (cls : JacClass) (name value : Option String) (kid : List (Option RAst)) (line : Int)

/-- `type(self)` of a runtime node. -/
def RAst.cls : RAst → JacClass
  | RAst.mk c _ _ _ _ => c

/-- `AstNode.is_type` (jac_ast.py lines 40-42): `type(self) == typ`, an
exact-class comparison. -/
def is_type (n : RAst) (typ : JacClass) : Bool := decide (n.cls = typ)

/-- Values of the dict returned by `AstNode.to_dict`. -/
inductive JVal : Type where
  | s (v : String)
  | i (v : Int)
  | arr (l : List JVal)
  | obj (fields : List (String × JVal))

/-- Keys of a dict value, in insertion order. -/
def jvalKeys : JVal → List String
  | JVal.obj fields => fields.map Prod.fst
  | _ => []

def lookupField (k : String) : List (String × JVal) → Option JVal
  | [] => none
  | kv :: rest => if kv.1 = k then some kv.2 else lookupField k rest

/-- Dict lookup on a `JVal.obj`. -/
def jvalGet (d : JVal) (k : String) : Option JVal :=
  match d with
  | JVal.obj fields => lookupField k fields
  | _ => none

mutual

/-- `AstNode.to_dict` (jac_ast.py lines 28-38): a dict with keys `node`
(the concrete class name), `kid` (the dicts of the truthy children, in
order) and `line`, plus `name` and `value` exactly when `type(self)` is
`Token`. -/
def to_dict : RAst → JVal
  | RAst.mk cls name value kid line =>
    JVal.obj ([("node", JVal.s (pyName cls)),
               ("kid", JVal.arr (to_dict_kids kid)),
               ("line", JVal.i line)] ++
      (if cls = JacClass.Token
        then [("name", JVal.s (name.getD "")), ("value", JVal.s (value.getD ""))]
        else []))

/-- The comprehension `[x.to_dict() for x in self.kid if x]`: `None`
children are skipped (an `AstNode` instance is always truthy). -/
def to_dict_kids : List (Option RAst) → List JVal
  | [] => []
  | none :: rest => to_dict_kids rest
  | some x :: rest => to_dict x :: to_dict_kids rest

end

theorem to_dict_kids_eq_filterMap :
    ∀ l : List (Option RAst), to_dict_kids l = (l.filterMap id).map to_dict := by
  intro l
  induction l with
  | nil => rfl
  | cons h rest ih =>
    cases h with
    | none => simpa [to_dict_kids] using ih
    | some x => simpa [to_dict_kids] using ih


/-- C9: for every node, `to_dict` returns a dict with exactly the keys
`node`, `kid`, `line` — `node` holding the concrete class name, `line` the
line number, and `kid` the list of `to_dict` of precisely the non-None
children in their original order — with `name` and `value` keys added
exactly when the node's concrete class is `Token`. -/
theorem to_dict_shape (cls : JacClass) (name value : Option String)
    (kid : List (Option RAst)) (line : Int) :
    jvalKeys (to_dict (RAst.mk cls name value kid line)) =
      ["node", "kid", "line"] ++
        (if cls = JacClass.Token then ["name", "value"] else []) ∧
    jvalGet (to_dict (RAst.mk cls name value kid line)) "node" =
      some (JVal.s (pyName cls)) ∧
    jvalGet (to_dict (RAst.mk cls name value kid line)) "line" =
      some (JVal.i line) ∧
    jvalGet (to_dict (RAst.mk cls name value kid line)) "kid" =
      some (JVal.arr ((kid.filterMap id).map to_dict)) ∧
    jvalGet (to_dict (RAst.mk cls name value kid line)) "name" =
      (if cls = JacClass.Token then some (JVal.s (name.getD "")) else none) ∧
    jvalGet (to_dict (RAst.mk cls name value kid line)) "value" =
      (if cls = JacClass.Token then some (JVal.s (value.getD "")) else none) := by
  by_cases hc : cls = JacClass.Token
  · simp [to_dict, jvalKeys, jvalGet, lookupField, hc, to_dict_kids_eq_filterMap]
  · simp [to_dict, jvalKeys, jvalGet, lookupField, hc, to_dict_kids_eq_filterMap]

/-- C10: `is_type` is an exact-class comparison, true precisely when the
node's concrete class equals the queried class; in particular a `NodeRef`
node — although `NodeRef` subclasses `GlobalRef` — is not `is_type
GlobalRef`. -/
theorem is_type_is_exact :
    (∀ (n : RAst) (t : JacClass), is_type n t = true ↔ n.cls = t) ∧
    (∀ n : RAst, n.cls = JacClass.NodeRef →
      is_type n JacClass.GlobalRef = false ∧
      isinstance n.cls JacClass.GlobalRef = true) := by
  constructor
  · intro n t
    simp [is_type]
  · intro n h
    refine ⟨?_, ?_⟩
    · unfold is_type
      rw [h]
      rfl
    · rw [h]
      rfl

theorem is_type_is_exact_witness :
    is_type (RAst.mk JacClass.NodeRef none none [] 1) JacClass.GlobalRef = false ∧
    isinstance (RAst.mk JacClass.NodeRef none none [] 1).cls JacClass.GlobalRef = true :=
  is_type_is_exact.2 (RAst.mk JacClass.NodeRef none none [] 1) rfl


/-! ### Typed constructors (doc slots, Token fields, ArchDecl.def_link) -/

/-- A Python object reference to an AST node whose internal structure no
claim depends on (fields hold references in Python; identity only). -/
abbrev AstRef := Nat

/-- The kid guard of `AstNode.__init__` (jac_ast.py line 16):
`kid if kid else []`. -/
def initKid (kid : List AstRef) : List AstRef :=
  if kid.isEmpty then [] else kid

/-- `Token` (jac_ast.py lines 66-80): lexical kind `name` and literal text
`value`, plus the `AstNode` envelope. -/
structure Token where
  name : String
  value : String
  parent : Option AstRef
  kid : List AstRef
  line : Int
  meta : List (String × String)
deriving DecidableEq, Repr

/-- `Token.__init__`: stores `name` and `value`, then `AstNode.__init__`
(parent, kid guard, line, fresh metadata). -/
def Token.init (name value : String) (parent : Option AstRef) (kid : List AstRef)
    (line : Int) : Token :=
  { name := name, value := value, parent := parent, kid := initKid kid,
    line := line, meta := [] }

/-- `DocString` (jac_ast.py lines 193-205): `value : Optional[Token]` —
absence of the doc-string is the explicit value `None`. -/
structure DocString where
  value : Option Token
  parent : Option AstRef
  kid : List AstRef
  line : Int
  meta : List (String × String)
deriving DecidableEq, Repr

def DocString.init (value : Option Token) (parent : Option AstRef)
    (kid : List AstRef) (line : Int) : DocString :=
  { value := value, parent := parent, kid := initKid kid, line := line, meta := [] }

/-- `Module` (jac_ast.py lines 100-116).  Its `doc` parameter is annotated
`Token` — not `DocString`. -/
structure Module where
  name : String
  doc : Token
  body : AstRef
  parent : Option AstRef
  kid : List AstRef
  line : Int
  meta : List (String × String)

def Module.init (name : String) (doc : Token) (body : AstRef)
    (parent : Option AstRef) (kid : List AstRef) (line : Int) : Module :=
  { name := name, doc := doc, body := body, parent := parent, kid := initKid kid,
    line := line, meta := [] }

/-- `GlobalVars` (jac_ast.py lines 136-152). -/
structure GlobalVars where
  doc : DocString
  access : Option Token
  assignments : AstRef
  parent : Option AstRef
  kid : List AstRef
  line : Int
  meta : List (String × String)

def GlobalVars.init (doc : DocString) (access : Option Token) (assignments : AstRef)
    (parent : Option AstRef) (kid : List AstRef) (line : Int) : GlobalVars :=
  { doc := doc, access := access, assignments := assignments, parent := parent,
    kid := initKid kid, line := line, meta := [] }

/-- `Test` (jac_ast.py lines 155-173). -/
structure Test where
  name : Token
  doc : DocString
  description : Token
  body : AstRef
  parent : Option AstRef
  kid : List AstRef
  line : Int
  meta : List (String × String)

def Test.init (name : Token) (doc : DocString) (description : Token) (body : AstRef)
    (parent : Option AstRef) (kid : List AstRef) (line : Int) : Test :=
  { name := name, doc := doc, description := description, body := body,
    parent := parent, kid := initKid kid, line := line, meta := [] }

/-- `ModuleCode` (jac_ast.py lines 176-190). -/
structure ModuleCode where
  doc : DocString
  body : AstRef
  parent : Option AstRef
  kid : List AstRef
  line : Int
  meta : List (String × String)

def ModuleCode.init (doc : DocString) (body : AstRef) (parent : Option AstRef)
    (kid : List AstRef) (line : Int) : ModuleCode :=
  { doc := doc, body := body, parent := parent, kid := initKid kid,
    line := line, meta := [] }

/-- `Architype` (jac_ast.py lines 278-300). -/
structure Architype where
  name : Token
  typ : Token
  doc : DocString
  access : Option Token
  base_classes : AstRef
  body : AstRef
  parent : Option AstRef
  kid : List AstRef
  line : Int
  meta : List (String × String)

def Architype.init (name typ : Token) (doc : DocString) (access : Option Token)
    (base_classes body : AstRef) (parent : Option AstRef) (kid : List AstRef)
    (line : Int) : Architype :=
  { name := name, typ := typ, doc := doc, access := access,
    base_classes := base_classes, body := body, parent := parent,
    kid := initKid kid, line := line, meta := [] }

/-- `ArchDecl` (jac_ast.py lines 303-324): `__init__` also sets
`self.def_link: Optional[ArchDef] = None` — a single optional reference. -/
structure ArchDecl where
  doc : DocString
  access : Option Token
  typ : Token
  name : Token
  base_classes : AstRef
  def_link : Option AstRef
  parent : Option AstRef
  kid : List AstRef
  line : Int
  meta : List (String × String)

def ArchDecl.init (doc : DocString) (access : Option Token) (typ name : Token)
    (base_classes : AstRef) (parent : Option AstRef) (kid : List AstRef)
    (line : Int) : ArchDecl :=
  { doc := doc, access := access, typ := typ, name := name,
    base_classes := base_classes, def_link := none, parent := parent,
    kid := initKid kid, line := line, meta := [] }

/-- `ArchDef` (jac_ast.py lines 327-345). -/
structure ArchDef where
  doc : DocString
  mod : Option Token
  arch : AstRef
  body : AstRef
  parent : Option AstRef
  kid : List AstRef
  line : Int
  meta : List (String × String)

def ArchDef.init (doc : DocString) (mod : Option Token) (arch body : AstRef)
    (parent : Option AstRef) (kid : List AstRef) (line : Int) : ArchDef :=
  { doc := doc, mod := mod, arch := arch, body := body, parent := parent,
    kid := initKid kid, line := line, meta := [] }

/-- `Ability` (jac_ast.py lines 363-385). -/
structure Ability where
  name : Token
  is_func : Bool
  doc : DocString
  access : Option Token
  signature : AstRef
  body : AstRef
  parent : Option AstRef
  kid : List AstRef
  line : Int
  meta : List (String × String)

def Ability.init (name : Token) (is_func : Bool) (doc : DocString)
    (access : Option Token) (signature body : AstRef) (parent : Option AstRef)
    (kid : List AstRef) (line : Int) : Ability :=
  { name := name, is_func := is_func, doc := doc, access := access,
    signature := signature, body := body, parent := parent, kid := initKid kid,
    line := line, meta := [] }

/-- `AbilityDecl` (jac_ast.py lines 388-408). -/
structure AbilityDecl where
  doc : DocString
  access : Option Token
  name : Token
  signature : AstRef
  is_func : Bool
  parent : Option AstRef
  kid : List AstRef
  line : Int
  meta : List (String × String)

def AbilityDecl.init (doc : DocString) (access : Option Token) (name : Token)
    (signature : AstRef) (is_func : Bool) (parent : Option AstRef)
    (kid : List AstRef) (line : Int) : AbilityDecl :=
  { doc := doc, access := access, name := name, signature := signature,
    is_func := is_func, parent := parent, kid := initKid kid, line := line,
    meta := [] }

/-- `AbilityDef` (jac_ast.py lines 411-429). -/
structure AbilityDef where
  doc : DocString
  mod : Option Token
  ability : AstRef
  body : AstRef
  parent : Option AstRef
  kid : List AstRef
  line : Int
  meta : List (String × String)

def AbilityDef.init (doc : DocString) (mod : Option Token) (ability body : AstRef)
    (parent : Option AstRef) (kid : List AstRef) (line : Int) : AbilityDef :=
  { doc := doc, mod := mod, ability := ability, body := body, parent := parent,
    kid := initKid kid, line := line, meta := [] }

/-- `AbilitySpec` (jac_ast.py lines 432-454). -/
structure AbilitySpec where
  doc : DocString
  name : Token
  arch : AstRef
  mod : Option Token
  signature : Option AstRef
  body : AstRef
  parent : Option AstRef
  kid : List AstRef
  line : Int
  meta : List (String × String)

def AbilitySpec.init (doc : DocString) (name : Token) (arch : AstRef)
    (mod : Option Token) (signature : Option AstRef) (body : AstRef)
    (parent : Option AstRef) (kid : List AstRef) (line : Int) : AbilitySpec :=
  { doc := doc, name := name, arch := arch, mod := mod, signature := signature,
    body := body, parent := parent, kid := initKid kid, line := line, meta := [] }

/-- `ArchHas` (jac_ast.py lines 472-488). -/
structure ArchHas where
  doc : DocString
  access : Option Token
  vars : AstRef
  parent : Option AstRef
  kid : List AstRef
  line : Int
  meta : List (String × String)

def ArchHas.init (doc : DocString) (access : Option Token) (vars : AstRef)
    (parent : Option AstRef) (kid : List AstRef) (line : Int) : ArchHas :=
  { doc := doc, access := access, vars := vars, parent := parent,
    kid := initKid kid, line := line, meta := [] }

/-- `ArchCan` (jac_ast.py lines 544-564). -/
structure ArchCan where
  name : Token
  doc : DocString
  access : Option Token
  signature : Option AstRef
  body : AstRef
  parent : Option AstRef
  kid : List AstRef
  line : Int
  meta : List (String × String)

def ArchCan.init (name : Token) (doc : DocString) (access : Option Token)
    (signature : Option AstRef) (body : AstRef) (parent : Option AstRef)
    (kid : List AstRef) (line : Int) : ArchCan :=
  { name := name, doc := doc, access := access, signature := signature,
    body := body, parent := parent, kid := initKid kid, line := line, meta := [] }

/-- `ArchCanDecl` (jac_ast.py lines 567-585). -/
structure ArchCanDecl where
  name : Token
  doc : DocString
  access : Option Token
  signature : Option AstRef
  parent : Option AstRef
  kid : List AstRef
  line : Int
  meta : List (String × String)

def ArchCanDecl.init (name : Token) (doc : DocString) (access : Option Token)
    (signature : Option AstRef) (parent : Option AstRef) (kid : List AstRef)
    (line : Int) : ArchCanDecl :=
  { name := name, doc := doc, access := access, signature := signature,
    parent := parent, kid := initKid kid, line := line, meta := [] }

/-- The annotated class of the `doc` parameter for each node class that has
one: `Token` for `Module` (line 106), `DocString` for the thirteen other
doc-carrying classes. -/
def docFieldClass : JacClass → Option JacClass
  | JacClass.Module => some JacClass.Token
  | JacClass.GlobalVars => some JacClass.DocString
  | JacClass.Test => some JacClass.DocString
  | JacClass.ModuleCode => some JacClass.DocString
  | JacClass.Architype => some JacClass.DocString
  | JacClass.ArchDecl => some JacClass.DocString
  | JacClass.ArchDef => some JacClass.DocString
  | JacClass.Ability => some JacClass.DocString
  | JacClass.AbilityDecl => some JacClass.DocString
  | JacClass.AbilityDef => some JacClass.DocString
  | JacClass.AbilitySpec => some JacClass.DocString
  | JacClass.ArchHas => some JacClass.DocString
  | JacClass.ArchCan => some JacClass.DocString
  | JacClass.ArchCanDecl => some JacClass.DocString
  | _ => none


/-- A doc-string with the doc absent: `DocString(value=None, ...)`. -/
def absentDoc : DocString := DocString.init none none [] 0

/-- A throwaway name token for constructor arguments. -/
def tokNAME : Token := Token.init "NAME" "x" none [] 1

/-- C3 counterexample: not every doc-carrying node kind's `doc` slot holds a
(possibly absent) `DocString` — `Module` is a doc-carrying kind whose `doc`
slot is annotated as a plain `Token` (jac_ast.py line 106), and a `Token`'s
`value` is a mandatory string, so an absent doc-string is not representable
there. -/
theorem module_doc_slot_is_token :
    ¬ (∀ c : JacClass, docFieldClass c ≠ none →
        docFieldClass c = some JacClass.DocString) :=
  fun h => absurd (h JacClass.Module (by decide)) (by decide)

/-- C3 (amended): every doc-carrying node kind except `Module` (whose doc
slot is annotated as a plain, non-optional `Token`) takes a `DocString`,
whose `value : Optional[Token]` represents an absent doc-string explicitly,
and construction succeeds with the doc absent, storing it. -/
theorem doc_slots_accept_absent_docstring :
    (docFieldClass JacClass.GlobalVars = some JacClass.DocString ∧
     docFieldClass JacClass.Test = some JacClass.DocString ∧
     docFieldClass JacClass.ModuleCode = some JacClass.DocString ∧
     docFieldClass JacClass.Architype = some JacClass.DocString ∧
     docFieldClass JacClass.ArchDecl = some JacClass.DocString ∧
     docFieldClass JacClass.ArchDef = some JacClass.DocString ∧
     docFieldClass JacClass.Ability = some JacClass.DocString ∧
     docFieldClass JacClass.AbilityDecl = some JacClass.DocString ∧
     docFieldClass JacClass.AbilityDef = some JacClass.DocString ∧
     docFieldClass JacClass.AbilitySpec = some JacClass.DocString ∧
     docFieldClass JacClass.ArchHas = some JacClass.DocString ∧
     docFieldClass JacClass.ArchCan = some JacClass.DocString ∧
     docFieldClass JacClass.ArchCanDecl = some JacClass.DocString) ∧
    absentDoc.value = none ∧
    (GlobalVars.init absentDoc none 0 none [] 1).doc.value = none ∧
    (Test.init tokNAME absentDoc tokNAME 0 none [] 1).doc.value = none ∧
    (ModuleCode.init absentDoc 0 none [] 1).doc.value = none ∧
    (Architype.init tokNAME tokNAME absentDoc none 0 0 none [] 1).doc.value = none ∧
    (ArchDecl.init absentDoc none tokNAME tokNAME 0 none [] 1).doc.value = none ∧
    (ArchDef.init absentDoc none 0 0 none [] 1).doc.value = none ∧
    (Ability.init tokNAME true absentDoc none 0 0 none [] 1).doc.value = none ∧
    (AbilityDecl.init absentDoc none tokNAME 0 true none [] 1).doc.value = none ∧
    (AbilityDef.init absentDoc none 0 0 none [] 1).doc.value = none ∧
    (AbilitySpec.init absentDoc tokNAME 0 none none 0 none [] 1).doc.value = none ∧
    (ArchHas.init absentDoc none 0 none [] 1).doc.value = none ∧
    (ArchCan.init tokNAME absentDoc none none 0 none [] 1).doc.value = none ∧
    (ArchCanDecl.init tokNAME absentDoc none none none [] 1).doc.value = none :=
  ⟨⟨rfl, rfl, rfl, rfl, rfl, rfl, rfl, rfl, rfl, rfl, rfl, rfl, rfl⟩,
   rfl, rfl, rfl, rfl, rfl, rfl, rfl, rfl, rfl, rfl, rfl, rfl, rfl, rfl⟩

/-- C6 counterexample: `Token.__init__` stores whatever kid list it is
given; a Token constructed with a non-empty kid list has a non-empty child
sequence, refuting "its child sequence is empty" for every constructed
Token. -/
theorem token_constructed_with_kids :
    (Token.init "NAME" "a" none [0] 1).kid ≠ ([] : List AstRef) := by decide

/-- C6 (amended): every constructed Token holds the supplied kind name and
literal text in its `name` and `value` fields, and its child sequence equals
the supplied kid list — in particular it is empty exactly when the supplied
list is empty; the constructor does not itself enforce emptiness. -/
theorem token_fields (name value : String) (parent : Option AstRef)
    (kid : List AstRef) (line : Int) :
    (Token.init name value parent kid line).name = name ∧
    (Token.init name value parent kid line).value = value ∧
    (Token.init name value parent kid line).kid = kid := by
  refine ⟨rfl, rfl, ?_⟩
  show initKid kid = kid
  cases kid with
  | nil => rfl
  | cons a t => rfl

/-- C7: a newly constructed `ArchDecl` has an empty `def_link`
(`self.def_link: Optional[ArchDef] = None`, jac_ast.py line 323); the field
is a single optional reference — not a list — so it holds at most one
definition at any time, and only the Decl/Def Match pass later fills it. -/
theorem archdecl_def_link_starts_empty (doc : DocString) (access : Option Token)
    (typ name : Token) (base_classes : AstRef) (parent : Option AstRef)
    (kid : List AstRef) (line : Int) :
    (ArchDecl.init doc access typ name base_classes parent kid line).def_link =
      none := rfl


/-! ### The default pass pipeline and the AST build entry point -/

/-- The passes exported by `src/jaclang/jac/passes/main/__init__.py`. -/
inductive JacPass where
  | SubNodeTabPass
  | ImportPass
  | SymTabBuildPass
  | DeclDefMatchPass
  | DefUsePass
  | PyOutPass
  | JacFormatPass
  | PyastBuildPass
  | PyastGenPass
deriving DecidableEq, Repr

/-- Modelled from the spec: the module `jaclang.jac.passes.main.schedules`,
which defines `py_code_gen`, is not under `src/` (only
`passes/main/__init__.py`, which imports it and re-exports it as
`pass_schedule`, is).  Spec §2 and §4 fix the default order: import
resolution, then symbol-table construction, then declaration/definition
linking, then definition-use resolution, then final lowering to the host
language (`PyastGenPass`); `SubNodeTabPass` heads the list, mirroring how
`__init__.py` lists the passes. -/
def py_code_gen : List JacPass :=
  [JacPass.SubNodeTabPass, JacPass.ImportPass, JacPass.SymTabBuildPass,
   JacPass.DeclDefMatchPass, JacPass.DefUsePass, JacPass.PyastGenPass]

/-- `pass_schedule = py_code_gen` (passes/main/__init__.py line 14). -/
def pass_schedule : List JacPass := py_code_gen

/-- C4: in the default pass schedule, import resolution runs before
symbol-table construction, which runs before declaration/definition
linking, which runs before definition-use resolution, which runs before the
final lowering pass to host-language AST. -/
theorem pass_schedule_order :
    ∃ i1 i2 i3 i4 i5,
      pyListIndex pass_schedule JacPass.ImportPass = some i1 ∧
      pyListIndex pass_schedule JacPass.SymTabBuildPass = some i2 ∧
      pyListIndex pass_schedule JacPass.DeclDefMatchPass = some i3 ∧
      pyListIndex pass_schedule JacPass.DefUsePass = some i4 ∧
      pyListIndex pass_schedule JacPass.PyastGenPass = some i5 ∧
      i1 < i2 ∧ i2 < i3 ∧ i3 < i4 ∧ i4 < i5 :=
  ⟨1, 2, 3, 4, 5, by decide, by decide, by decide, by decide, by decide,
   by decide, by decide, by decide, by decide⟩

/-- A parse tree from the external parsing collaborator (spec §6: a
nonterminal name with children, or a leaf token name+value, with a line
number per node). -/
inductive ParseTree : Type where
  | node (name : String) (kids : List ParseTree) (line : Int)
  | leaf (name value : String) (line : Int)

/-- The parser collaborator's output (spec §6: a parse tree plus a boolean
error flag and message list); `ir` is `none` when no tree was produced. -/
structure JacParserOut where
  ir : Option ParseTree
  errors_had : Bool
  errors : List String

/-- Modelled from the spec: the `Pass` base class
(`jaclang.jac.passes.ir_pass`) is not under `src/`.  Spec §4.1: a pass
leaves behind a possibly-mutated AST plus an accumulated, non-exception
diagnostics list (`errors_had` flag plus message log); a fatal error marks
the module's AST unusable (`None`-equivalent). -/
structure Pass where
  ir : Option RAst
  errors_had : Bool
  errors : List String

/-- Modelled from the spec: `AstBuildPass`
(`jaclang.jac.passes.ast_build_pass`) is not under `src/`.  Spec §6: "AST
Build fails cleanly if that flag is set, skipping AST construction"; spec
§7: every expected error condition becomes a diagnostic entry, never an
uncatchable fault.  The per-nonterminal structural translation itself is
abstracted as the `build` parameter. -/
def AstBuildPass (build : ParseTree → RAst) (input_ir : JacParserOut) : Pass :=
  if input_ir.errors_had then
    { ir := none, errors_had := true,
      errors := input_ir.errors ++ ["AST build skipped: parse failed"] }
  else
    match input_ir.ir with
    | none =>
      { ir := none, errors_had := true,
        errors := input_ir.errors ++ ["AST build skipped: no parse tree"] }
    | some t => { ir := some (build t), errors_had := false, errors := input_ir.errors }

/-- `isinstance(ast_ret, Pass)` in ast_build.py line 17: `AstBuildPass`
subclasses `Pass`, so the check holds of every value the constructor
returns. -/
def isinstanceOfPass (_p : Pass) : Bool := true

/-- `jac_file_to_ast_pass` (src/jaclang/jac/ast_build.py lines 10-19), with
file reading, lexing and parsing abstracted into the `parse` collaborator;
`Except.error` models the `raise ValueError("Parsing of Jac file failed.")`
escaping the function. -/
def jac_file_to_ast_pass (parse : String → JacParserOut) (build : ParseTree → RAst)
    (file_text : String) : Except String Pass :=
  let prse := parse file_text
  let ast_ret := AstBuildPass build prse
  if isinstanceOfPass ast_ret then Except.ok ast_ret
  else Except.error "Parsing of Jac file failed."

/-- C5: whenever the parser reports failure (its error flag is set), AST
construction is skipped cleanly — `jac_file_to_ast_pass` returns normally
with a pass object carrying no usable AST and the condition recorded as a
diagnostic; it does not terminate abnormally on this expected error
condition. -/
theorem jac_file_to_ast_pass_fails_cleanly (parse : String → JacParserOut)
    (build : ParseTree → RAst) (file_text : String)
    (herr : (parse file_text).errors_had = true) :
    ∃ p : Pass, jac_file_to_ast_pass parse build file_text = Except.ok p ∧
      p.ir = none ∧ p.errors_had = true ∧
      "AST build skipped: parse failed" ∈ p.errors := by
  refine ⟨AstBuildPass build (parse file_text), rfl, ?_, ?_, ?_⟩
  · simp [AstBuildPass, herr]
  · simp [AstBuildPass, herr]
  · simp [AstBuildPass, herr]

theorem jac_file_to_ast_pass_fails_cleanly_witness :
    ∃ p : Pass,
      jac_file_to_ast_pass
        (fun _ => { ir := none, errors_had := true, errors := ["syntax error"] })
        (fun _ => RAst.mk JacClass.Module none none [] 1) "x = ;" = Except.ok p ∧
      p.ir = none ∧ p.errors_had = true ∧
      "AST build skipped: parse failed" ∈ p.errors :=
  jac_file_to_ast_pass_fails_cleanly
    (fun _ => { ir := none, errors_had := true, errors := ["syntax error"] })
    (fun _ => RAst.mk JacClass.Module none none [] 1) "x = ;" rfl

end Jac
